import Mathlib

/-!
Verification of the windowed pagination logic of the nobelium blog front-end.

The embedded code is `src/components/Pagination.js`:
* `generatePages` — the page-window computation (markers: page numbers and
  the `'...'` ellipsis sentinel), with `maxVisiblePages = 7` hardcoded;
* `handleJump` — the jump-to-page form handler (`parseInt` plus a bounds
  guard, navigating via `window.location.href`);
* the previous/next controls, which render an enabled link exactly when
  `currentPage > 1` (resp. `currentPage < calculatedTotalPages`).

JavaScript numbers are modelled as `Int` (all quantities involved are
integers in every reachable state); `Math.max`/`Math.min`/`Math.floor` on
integers become `max`/`min` and integer division. Navigation-or-no-op
handlers become `Option`-valued functions (`none` = no navigation, the
disabled control, or the silently ignored submit).
-/

namespace Nobelium

/-- A marker in the rendered page list: either a concrete page number or the
`'...'` ellipsis sentinel pushed by `generatePages`. -/
inductive Marker where
  | page (n : Int)
  | ellipsis
  deriving DecidableEq, Repr

/-- The constant `maxVisiblePages = 7` of `generatePages`. -/
def maxVisiblePages : Int := 7

/-- Initial value of `startPage` in `generatePages`:
`Math.max(1, currentPage - Math.floor(maxVisiblePages / 2))`
(before the near-the-end adjustment). -/
def startPageInit (currentPage : Int) : Int :=
  max 1 (currentPage - maxVisiblePages / 2)

/-- Value of `endPage` in `generatePages`:
`Math.min(calculatedTotalPages, startPage + maxVisiblePages - 1)`. -/
def endPage (currentPage totalPages : Int) : Int :=
  min totalPages (startPageInit currentPage + maxVisiblePages - 1)

/-- The final value of `startPage`: the code reassigns
`startPage = Math.max(1, endPage - maxVisiblePages + 1)` when
`endPage - startPage + 1 < maxVisiblePages`. -/
def startPage (currentPage totalPages : Int) : Int :=
  if endPage currentPage totalPages - startPageInit currentPage + 1 < maxVisiblePages then
    max 1 (endPage currentPage totalPages - maxVisiblePages + 1)
  else
    startPageInit currentPage

/-- The `for (let i = startPage; i <= endPage; i++) pages.push(i)` loop,
unrolled from the front: `pageRun s n = [page s, page (s+1), …, page (s+n-1)]`. -/
def pageRun (s : Int) : Nat → List Marker
  | 0 => []
  | n + 1 => Marker.page s :: pageRun (s + 1) n

/-- Embedding of `generatePages` from `src/components/Pagination.js`
(lines 16–49), as a function of `currentPage` and `calculatedTotalPages`.
The three blocks are the code's three push sites in order: first page (and
leading ellipsis), the visible run, trailing ellipsis and last page. -/
def generatePages (currentPage totalPages : Int) : List Marker :=
  let s := startPage currentPage totalPages
  let e := endPage currentPage totalPages
  (if s > 1 then Marker.page 1 :: (if s > 2 then [Marker.ellipsis] else []) else [])
    ++ pageRun s (e - s + 1).toNat
    ++ (if e < totalPages then
          (if e < totalPages - 1 then [Marker.ellipsis] else []) ++ [Marker.page totalPages]
        else [])

/-- The spec's `PageWindowCalculator` algorithm (spec §4.1, steps 1–5),
written from the spec's words with `maxVisible = 7`, for comparison with
`generatePages`:  `half = floor(maxVisible/2)`; `startPage = max(1, currentPage
- half)`; `endPage = min(totalPages, startPage + maxVisible - 1)`; if the
window is shorter than `maxVisible`, `startPage = max(1, endPage - maxVisible
+ 1)`; then emit first page / leading ellipsis, the run, trailing ellipsis /
last page. -/
def computePageWindowSpec (currentPage totalPages : Int) : List Marker :=
  let maxVisible : Int := 7
  let half := maxVisible / 2
  let startPage0 := max 1 (currentPage - half)
  let endPage := min totalPages (startPage0 + maxVisible - 1)
  let startPage :=
    if endPage - startPage0 + 1 < maxVisible then max 1 (endPage - maxVisible + 1)
    else startPage0
  (if startPage > 1 then
      Marker.page 1 :: (if startPage > 2 then [Marker.ellipsis] else [])
    else [])
    ++ pageRun startPage (endPage - startPage + 1).toNat
    ++ (if endPage < totalPages then
          (if endPage < totalPages - 1 then [Marker.ellipsis] else [])
            ++ [Marker.page totalPages]
        else [])

/-- Checks every occurrence of an ellipsis sitting between two numeric
markers `a` and `b` in the list, demanding `a + k ≤ b` (i.e. at least
`k - 1` hidden pages between them). -/
def ellipsisGapAtLeast (k : Int) : List Marker → Bool
  | Marker.page a :: Marker.ellipsis :: Marker.page b :: rest =>
      decide (a + k ≤ b) && ellipsisGapAtLeast k (Marker.page b :: rest)
  | _ :: rest => ellipsisGapAtLeast k rest
  | [] => true

/-- JS string whitespace as skipped by `parseInt` (the forms that occur in
practice: space, tab, newline, carriage return, vertical tab, form feed). -/
def isJsWhitespace (c : Char) : Bool :=
  c = ' ' || c = '\t' || c = '\n' || c = '\r' || c = '\x0b' || c = '\x0c'

/-- Value of a hexadecimal digit, `none` for any other character. -/
def hexVal (c : Char) : Option Nat :=
  if c.isDigit then some (c.toNat - 48)
  else if 'a' ≤ c && c ≤ 'f' then some (c.toNat - 87)
  else if 'A' ≤ c && c ≤ 'F' then some (c.toNat - 55)
  else none

/-- Accumulate the longest leading run of decimal digits; stops at the first
non-digit (trailing characters are ignored, as in `parseInt`). -/
def parseDecAux : List Char → Int → Int
  | [], acc => acc
  | c :: cs, acc =>
      if c.isDigit then parseDecAux cs (acc * 10 + ((c.toNat : Int) - 48)) else acc

/-- Accumulate the longest leading run of hex digits. -/
def parseHexAux : List Char → Int → Int
  | [], acc => acc
  | c :: cs, acc =>
      match hexVal c with
      | some v => parseHexAux cs (acc * 16 + (v : Int))
      | none => acc

/-- Digits of an unsigned numeric body after the optional sign: a `0x`/`0X`
prefix switches to hexadecimal, otherwise decimal; `none` when no digit is
consumed (JS `NaN`). -/
def parseUnsigned : List Char → Option Int
  | '0' :: 'x' :: rest =>
      if rest.head?.any (fun c => (hexVal c).isSome) then some (parseHexAux rest 0) else none
  | '0' :: 'X' :: rest =>
      if rest.head?.any (fun c => (hexVal c).isSome) then some (parseHexAux rest 0) else none
  | cs =>
      if cs.head?.any Char.isDigit then some (parseDecAux cs 0) else none

/-- JavaScript `parseInt(string)` with no radix argument, on exact integers:
skip leading whitespace, optional sign, then the longest prefix of digits
(hex after a `0x` prefix); `none` models `NaN`.  (IEEE-754 rounding of huge
digit strings is not modelled; all page numbers in use are small.) -/
def parseIntJS (s : String) : Option Int :=
  let cs := s.toList.dropWhile isJsWhitespace
  match cs with
  | '-' :: rest => (parseUnsigned rest).map (fun n => -n)
  | '+' :: rest => parseUnsigned rest
  | rest => parseUnsigned rest

/-- Embedding of `handleJump` from `src/components/Pagination.js`
(lines 51–61): parse the
input with `parseInt`, then `if (pageNum && pageNum >= 1 && pageNum <=
calculatedTotalPages)` navigate to that page (page 1 maps to the root path).
`none` models the silently ignored submit (a `NaN` or `0` result is falsy, so
the guard fails). -/
def handleJump (totalPages : Int) (jumpPage : String) : Option Int :=
  match parseIntJS jumpPage with
  | none => none
  | some pageNum =>
      if pageNum ≠ 0 ∧ pageNum ≥ 1 ∧ pageNum ≤ totalPages then some pageNum else none

/-- Whether a raw string is a valid integer literal, following the spec's
words in §4.2 (`jumpFromInput` "parses rawText as an integer; fails with
ParseError if not a valid integer"): the whole string is an optional sign
followed by one or more decimal digits. -/
def isValidIntegerStr (s : String) : Bool :=
  match s.toList with
  | '-' :: rest => !rest.isEmpty && rest.all Char.isDigit
  | '+' :: rest => !rest.isEmpty && rest.all Char.isDigit
  | rest => !rest.isEmpty && rest.all Char.isDigit

/-- The next-page control (lines 131–148): an enabled link to
`currentPage + 1` exactly when `currentPage < calculatedTotalPages`, a
disabled placeholder otherwise. -/
def nextTarget (currentPage totalPages : Int) : Option Int :=
  if currentPage < totalPages then some (currentPage + 1) else none

/-- The previous-page control (lines 68–85): an enabled link to
`currentPage - 1` exactly when `currentPage > 1`, a disabled placeholder
otherwise. -/
def prevTarget (currentPage : Int) : Option Int :=
  if currentPage > 1 then some (currentPage - 1) else none

example : generatePages 5 10 =
    [Marker.page 1, Marker.page 2, Marker.page 3, Marker.page 4, Marker.page 5,
     Marker.page 6, Marker.page 7, Marker.page 8, Marker.ellipsis, Marker.page 10] := by
  decide

example : generatePages 1 1 = [Marker.page 1] := by decide

example : generatePages 1 20 =
    [Marker.page 1, Marker.page 2, Marker.page 3, Marker.page 4, Marker.page 5,
     Marker.page 6, Marker.page 7, Marker.ellipsis, Marker.page 20] := by decide

example : generatePages 20 20 =
    [Marker.page 1, Marker.ellipsis, Marker.page 14, Marker.page 15, Marker.page 16,
     Marker.page 17, Marker.page 18, Marker.page 19, Marker.page 20] := by decide

example : generatePages 6 9 =
    [Marker.page 1, Marker.ellipsis, Marker.page 3, Marker.page 4, Marker.page 5,
     Marker.page 6, Marker.page 7, Marker.page 8, Marker.page 9] := by decide

/-! ### Helper lemmas -/

theorem length_pageRun : ∀ (n : Nat) (s : Int), (pageRun s n).length = n
  | 0, _ => rfl
  | n + 1, s => by simp [pageRun, length_pageRun n (s + 1)]

theorem ellipsis_not_mem_pageRun : ∀ (n : Nat) (s : Int), Marker.ellipsis ∉ pageRun s n
  | 0, _ => by simp [pageRun]
  | n + 1, s => by
      simp only [pageRun, List.mem_cons]
      rintro (h | h)
      · exact Marker.noConfusion h
      · exact ellipsis_not_mem_pageRun n (s + 1) h

theorem mem_pageRun : ∀ (n : Nat) (s x : Int), s ≤ x → x < s + n → Marker.page x ∈ pageRun s n
  | 0, s, x, h1, h2 => absurd h2 (by omega)
  | n + 1, s, x, h1, h2 => by
      simp only [pageRun, List.mem_cons]
      rcases eq_or_lt_of_le h1 with h | h
      · exact Or.inl (by rw [h])
      · exact Or.inr (mem_pageRun n (s + 1) x (by omega) (by push_cast at h2 ⊢; omega))

theorem page_mem_pageRun : ∀ (n : Nat) (s : Int) (m : Marker),
    m ∈ pageRun s n → ∃ x, m = Marker.page x ∧ s ≤ x ∧ x < s + n
  | 0, _, _, h => by simp [pageRun] at h
  | n + 1, s, m, h => by
      simp only [pageRun, List.mem_cons] at h
      rcases h with h | h
      · exact ⟨s, h, le_refl s, by push_cast; omega⟩
      · obtain ⟨x, hx, h1, h2⟩ := page_mem_pageRun n (s + 1) m h
        exact ⟨x, hx, by omega, by push_cast at h2 ⊢; omega⟩

theorem one_le_startPage (cp tp : Int) : 1 ≤ startPage cp tp := by
  rw [startPage]
  split
  · exact le_max_left _ _
  · rw [startPageInit]
    exact le_max_left _ _

theorem endPage_le_total (cp tp : Int) : endPage cp tp ≤ tp := by
  simp [endPage]

theorem startPage_le_endPage (cp tp : Int) (h : 1 ≤ tp) :
    startPage cp tp ≤ endPage cp tp := by
  rw [startPage]
  split
  · simp only [endPage, startPageInit, maxVisiblePages] at *
    omega
  · simp only [endPage, startPageInit, maxVisiblePages] at *
    omega

theorem generatePages_eq_parts (cp tp : Int) :
    generatePages cp tp =
      (if startPage cp tp > 1 then
          Marker.page 1 :: (if startPage cp tp > 2 then [Marker.ellipsis] else [])
        else [])
        ++ pageRun (startPage cp tp) (endPage cp tp - startPage cp tp + 1).toNat
        ++ (if endPage cp tp < tp then
              (if endPage cp tp < tp - 1 then [Marker.ellipsis] else [])
                ++ [Marker.page tp]
            else []) := rfl

theorem page_one_mem_generatePages (cp tp : Int) (h : 1 ≤ tp) :
    Marker.page 1 ∈ generatePages cp tp := by
  rw [generatePages_eq_parts]
  by_cases hs : startPage cp tp > 1
  · simp [hs]
  · have h1 := one_le_startPage cp tp
    have hse := startPage_le_endPage cp tp h
    have hs1 : startPage cp tp = 1 := by omega
    refine List.mem_append_left _ (List.mem_append_right _ ?_)
    exact mem_pageRun _ _ 1 (by omega) (by rw [Int.toNat_of_nonneg (by omega)]; omega)

theorem page_total_mem_generatePages (cp tp : Int) (h : 1 ≤ tp) :
    Marker.page tp ∈ generatePages cp tp := by
  rw [generatePages_eq_parts]
  by_cases he : endPage cp tp < tp
  · exact List.mem_append_right _ (by simp [he])
  · have het := endPage_le_total cp tp
    have hse := startPage_le_endPage cp tp h
    have he1 : endPage cp tp = tp := by omega
    refine List.mem_append_left _ (List.mem_append_right _ ?_)
    exact mem_pageRun _ _ tp (by omega) (by rw [Int.toNat_of_nonneg (by omega)]; omega)

theorem ega_nil (k : Int) : ellipsisGapAtLeast k [] = true := rfl

theorem ega_singleton (k a : Int) : ellipsisGapAtLeast k [Marker.page a] = true := rfl

theorem ega_ell_cons (k : Int) (l : List Marker) :
    ellipsisGapAtLeast k (Marker.ellipsis :: l) = ellipsisGapAtLeast k l := rfl

theorem ega_page_page (k a b : Int) (l : List Marker) :
    ellipsisGapAtLeast k (Marker.page a :: Marker.page b :: l)
      = ellipsisGapAtLeast k (Marker.page b :: l) := rfl

theorem ega_page_ell_page (k a b : Int) (l : List Marker) :
    ellipsisGapAtLeast k (Marker.page a :: Marker.ellipsis :: Marker.page b :: l)
      = (decide (a + k ≤ b) && ellipsisGapAtLeast k (Marker.page b :: l)) := rfl

/-- Walking `ellipsisGapAtLeast` through a non-empty contiguous run: only the
last page of the run can interact with what follows. -/
theorem ega_run (k : Int) : ∀ (n : Nat) (s : Int) (l : List Marker),
    ellipsisGapAtLeast k (pageRun s (n + 1) ++ l)
      = ellipsisGapAtLeast k (Marker.page (s + n) :: l)
  | 0, s, l => by simp [pageRun]
  | n + 1, s, l => by
      have h1 : pageRun s (n + 1 + 1) ++ l
          = Marker.page s :: Marker.page (s + 1) :: (pageRun (s + 1 + 1) n ++ l) := rfl
      rw [h1, ega_page_page]
      have h2 : Marker.page (s + 1) :: (pageRun (s + 1 + 1) n ++ l)
          = pageRun (s + 1) (n + 1) ++ l := rfl
      rw [h2, ega_run k n (s + 1) l]
      have h3 : s + 1 + (n : Int) = s + ((n : Nat) + 1 : Nat) := by push_cast; ring
      rw [h3]

/-- The trailing block of `generatePages` (last page and its optional
ellipsis), entered holding the last page `e` of the visible run: every
ellipsis there hides at least one page. -/
theorem ega_two_tail (e tp : Int) (het : e ≤ tp) :
    ellipsisGapAtLeast 2 (Marker.page e ::
      (if e < tp then
          (if e < tp - 1 then [Marker.ellipsis] else []) ++ [Marker.page tp]
        else [])) = true := by
  by_cases h : e < tp
  · by_cases h2 : e < tp - 1
    · rw [if_pos h, if_pos h2]
      have h4 : ([Marker.ellipsis] ++ [Marker.page tp] : List Marker)
          = Marker.ellipsis :: Marker.page tp :: [] := rfl
      rw [h4, ega_page_ell_page, ega_singleton]
      simp
      omega
    · rw [if_pos h, if_neg h2]
      have h4 : (([] : List Marker) ++ [Marker.page tp] : List Marker)
          = Marker.page tp :: [] := rfl
      rw [h4, ega_page_page, ega_singleton]
  · rw [if_neg h]
    exact ega_singleton 2 e

/-- Every ellipsis emitted by `generatePages` sits between pages `a` and `b`
with `a + 2 ≤ b`, i.e. hides at least one page — for any total of at least
one page and any current page (also out-of-range ones). -/
theorem generatePages_gap_two (cp tp : Int) (h : 1 ≤ tp) :
    ellipsisGapAtLeast 2 (generatePages cp tp) = true := by
  have hs1 : 1 ≤ startPage cp tp := one_le_startPage cp tp
  have hse : startPage cp tp ≤ endPage cp tp := startPage_le_endPage cp tp h
  have het : endPage cp tp ≤ tp := endPage_le_total cp tp
  obtain ⟨m, hm⟩ : ∃ m, (endPage cp tp - startPage cp tp + 1).toNat = m + 1 :=
    ⟨(endPage cp tp - startPage cp tp + 1).toNat - 1, by omega⟩
  have hsme : startPage cp tp + (m : Int) = endPage cp tp := by omega
  rw [generatePages_eq_parts, hm]
  by_cases hgt1 : startPage cp tp > 1
  · by_cases hgt2 : startPage cp tp > 2
    · rw [if_pos hgt1, if_pos hgt2]
      simp only [List.cons_append, List.nil_append, List.append_assoc]
      have hrun : pageRun (startPage cp tp) (m + 1)
            ++ (if endPage cp tp < tp then
                  (if endPage cp tp < tp - 1 then [Marker.ellipsis] else [])
                    ++ [Marker.page tp]
                else [])
          = Marker.page (startPage cp tp)
              :: (pageRun (startPage cp tp + 1) m
                  ++ (if endPage cp tp < tp then
                        (if endPage cp tp < tp - 1 then [Marker.ellipsis] else [])
                          ++ [Marker.page tp]
                      else [])) := rfl
      rw [hrun, ega_page_ell_page, ← hrun, ega_run, hsme,
        ega_two_tail (endPage cp tp) tp het]
      simp
      omega
    · rw [if_pos hgt1, if_neg hgt2]
      simp only [List.cons_append, List.nil_append, List.append_assoc]
      have hrun : pageRun (startPage cp tp) (m + 1)
            ++ (if endPage cp tp < tp then
                  (if endPage cp tp < tp - 1 then [Marker.ellipsis] else [])
                    ++ [Marker.page tp]
                else [])
          = Marker.page (startPage cp tp)
              :: (pageRun (startPage cp tp + 1) m
                  ++ (if endPage cp tp < tp then
                        (if endPage cp tp < tp - 1 then [Marker.ellipsis] else [])
                          ++ [Marker.page tp]
                      else [])) := rfl
      rw [hrun, ega_page_page, ← hrun, ega_run, hsme]
      exact ega_two_tail (endPage cp tp) tp het
  · rw [if_neg hgt1]
    simp only [List.nil_append]
    rw [ega_run, hsme]
    exact ega_two_tail (endPage cp tp) tp het

example : parseIntJS ("12abc") = some 12 := by decide
example : parseIntJS ("abc") = none := by decide
example : parseIntJS ("  -42xyz") = some (-42) := by decide
example : parseIntJS ("0x10") = some 16 := by decide
example : parseIntJS ("0") = some 0 := by decide
example : handleJump 20 ("12abc") = some 12 := by decide
example : handleJump 20 ("abc") = none := by decide
example : handleJump 20 ("0") = none := by decide

/-- Under valid inputs with at most `maxVisiblePages` total pages, the window
degenerates to the whole range: `startPage = 1` and `endPage = totalPages`. -/
theorem window_small (cp tp : Int) (h1 : 1 ≤ cp) (h2 : cp ≤ tp) (h3 : tp ≤ 7) :
    startPage cp tp = 1 ∧ endPage cp tp = tp := by
  have he : endPage cp tp = tp := by
    simp only [endPage, startPageInit, maxVisiblePages]
    omega
  refine ⟨?_, he⟩
  rw [startPage, he]
  simp only [startPageInit, maxVisiblePages]
  split <;> omega

/-- Under valid inputs the visible window spans exactly
`min maxVisiblePages totalPages` pages. -/
theorem window_length (cp tp : Int) (h1 : 1 ≤ cp) (h2 : cp ≤ tp) :
    endPage cp tp - startPage cp tp + 1 = min 7 tp := by
  simp only [startPage, endPage, startPageInit, maxVisiblePages]
  split <;> omega

/-- Under valid inputs the visible window contains the current page. -/
theorem window_contains_current (cp tp : Int) (h1 : 1 ≤ cp) (h2 : cp ≤ tp) :
    startPage cp tp ≤ cp ∧ cp ≤ endPage cp tp := by
  simp only [startPage, endPage, startPageInit, maxVisiblePages]
  constructor
  · split <;> omega
  · omega
example : ellipsisGapAtLeast 3 (generatePages 6 9) = false := by decide
example : ellipsisGapAtLeast 2 (generatePages 6 9) = true := by decide

/-! ### Claims -/

/-- C1: for every `currentPage`, `totalPages` with
`1 ≤ currentPage ≤ totalPages` (and the hardcoded `maxVisible = 7`), the
marker sequence returned by `generatePages` equals the sequence produced by
the spec's five-step algorithm (`computePageWindowSpec`). -/
theorem C1_generatePages_matches_spec_algorithm (cp tp : Int)
    (h1 : 1 ≤ cp) (h2 : cp ≤ tp) :
    generatePages cp tp = computePageWindowSpec cp tp := rfl

theorem C1_generatePages_matches_spec_algorithm_witness :
    1 ≤ (5 : Int) ∧ (5 : Int) ≤ 10 ∧ generatePages 5 10 = computePageWindowSpec 5 10 :=
  ⟨by decide, by decide,
    C1_generatePages_matches_spec_algorithm 5 10 (by decide) (by decide)⟩

/-- C2 counterexample: `generatePages 5 10` is NOT the sequence
`[1, ellipsis, 3, 4, 5, 6, 7, ellipsis, 10]` claimed by the spec's concrete
scenario. -/
theorem C2_counterexample :
    generatePages 5 10 ≠
      [Marker.page 1, Marker.ellipsis, Marker.page 3, Marker.page 4, Marker.page 5,
       Marker.page 6, Marker.page 7, Marker.ellipsis, Marker.page 10] := by
  decide

/-- C2 (amended): `generatePages` invoked with `currentPage = 5`,
`totalPages = 10` (and `maxVisible = 7`) returns exactly
`[1, 2, 3, 4, 5, 6, 7, 8, ellipsis, 10]`: the window is `2..8`, and page `1`
adjoins it directly so no leading ellipsis is emitted. -/
theorem C2_amended_value :
    generatePages 5 10 =
      [Marker.page 1, Marker.page 2, Marker.page 3, Marker.page 4, Marker.page 5,
       Marker.page 6, Marker.page 7, Marker.page 8, Marker.ellipsis, Marker.page 10] := by
  decide

/-- C3 counterexample: at `currentPage = 6`, `totalPages = 9` (valid inputs)
the returned sequence starts `[1, ellipsis, 3, …]`, an ellipsis separating
numeric markers `a = 1` and `b = 3` with `b - a = 2 < 3` — it hides exactly
the single page `2`, refuting the claim that `b - a ≥ 3` always holds. -/
theorem C3_counterexample :
    1 ≤ (6 : Int) ∧ (6 : Int) ≤ 9 ∧
      ellipsisGapAtLeast 3 (generatePages 6 9) = false := by
  decide

/-- C3 (amended): for every valid `currentPage ≤ totalPages` (with
`maxVisible = 7`), whenever an ellipsis separates two numeric markers `a` and
`b` in the sequence returned by `generatePages`, `b - a ≥ 2` holds: an
ellipsis always hides at least one page (the guards `startPage > 2` and
`endPage < totalPages - 1` exclude a zero-page ellipsis, but not a one-page
one). -/
theorem C3_ellipsis_hides_at_least_one_page (cp tp : Int)
    (h1 : 1 ≤ cp) (h2 : cp ≤ tp) :
    ellipsisGapAtLeast 2 (generatePages cp tp) = true :=
  generatePages_gap_two cp tp (le_trans h1 h2)

theorem C3_ellipsis_hides_at_least_one_page_witness :
    1 ≤ (6 : Int) ∧ (6 : Int) ≤ 9 ∧
      ellipsisGapAtLeast 2 (generatePages 6 9) = true :=
  ⟨by decide, by decide,
    C3_ellipsis_hides_at_least_one_page 6 9 (by decide) (by decide)⟩

/-- C4: the code performs no range validation at all.  Invoked with
`currentPage = 0` (below range) or `currentPage = 9` (above the total of 5),
`generatePages` silently returns the ordinary marker sequence
`[1, 2, 3, 4, 5]` instead of failing with an `InvalidRangeError` as the spec
requires (the spec itself records the missing validation as a latent defect
in §9). -/
theorem C4_no_range_validation :
    generatePages 0 5 = pageRun 1 5 ∧ generatePages 9 5 = pageRun 1 5 := by
  decide

/-- C5: for every `totalPages ≤ maxVisible = 7` and valid `currentPage`,
`generatePages` returns exactly `[1, 2, …, totalPages]` (the full run starting
at page 1) with no ellipsis markers. -/
theorem C5_small_total_full_list (cp tp : Int)
    (h1 : 1 ≤ cp) (h2 : cp ≤ tp) (h3 : tp ≤ 7) :
    generatePages cp tp = pageRun 1 tp.toNat ∧
      Marker.ellipsis ∉ generatePages cp tp := by
  obtain ⟨hs, he⟩ := window_small cp tp h1 h2 h3
  have hmain : generatePages cp tp = pageRun 1 tp.toNat := by
    rw [generatePages_eq_parts, hs, he]
    have h4 : tp - 1 + 1 = tp := by omega
    rw [h4]
    simp
  refine ⟨hmain, ?_⟩
  rw [hmain]
  exact ellipsis_not_mem_pageRun _ _

theorem C5_small_total_full_list_witness :
    1 ≤ (2 : Int) ∧ (2 : Int) ≤ 3 ∧ (3 : Int) ≤ 7 ∧
      (generatePages 2 3 = pageRun 1 (3 : Int).toNat ∧
        Marker.ellipsis ∉ generatePages 2 3) :=
  ⟨by decide, by decide, by decide,
    C5_small_total_full_list 2 3 (by decide) (by decide) (by decide)⟩

/-- C6: for every valid `currentPage ≤ totalPages` (with `maxVisible = 7`),
the sequence returned by `generatePages` contains the numeric marker `1` and
the numeric marker `totalPages`. -/
theorem C6_contains_first_and_last (cp tp : Int) (h1 : 1 ≤ cp) (h2 : cp ≤ tp) :
    Marker.page 1 ∈ generatePages cp tp ∧ Marker.page tp ∈ generatePages cp tp :=
  ⟨page_one_mem_generatePages cp tp (le_trans h1 h2),
   page_total_mem_generatePages cp tp (le_trans h1 h2)⟩

theorem C6_contains_first_and_last_witness :
    1 ≤ (7 : Int) ∧ (7 : Int) ≤ 30 ∧
      (Marker.page 1 ∈ generatePages 7 30 ∧ Marker.page 30 ∈ generatePages 7 30) :=
  ⟨by decide, by decide, C6_contains_first_and_last 7 30 (by decide) (by decide)⟩

/-- C7 counterexample: the raw text of twelve-then-letters is not a valid
integer, yet with `totalPages = 20` the jump handler navigates to page `12`
(JavaScript `parseInt` keeps the longest numeric prefix and ignores the
trailing characters) instead of failing with a `ParseError` and leaving the
current page unchanged. -/
theorem C7_counterexample :
    isValidIntegerStr ("12abc") = false ∧ handleJump 20 ("12abc") = some 12 := by
  decide

/-- C7 (amended): `handleJump` parses the raw text with JavaScript `parseInt`
semantics (longest leading optional-signed digit prefix, trailing characters
ignored).  When parsing yields nothing the submit is silently ignored (no
navigation, current page unchanged); when it yields `n`, the handler navigates
to page `n` exactly when `1 ≤ n ≤ totalPages` and otherwise silently ignores
the submit.  No distinct `ParseError`/`OutOfRangeError` values exist in the
code. -/
theorem C7_handleJump_behavior (tp : Int) (s : String) :
    (parseIntJS s = none → handleJump tp s = none) ∧
    (∀ n : Int, parseIntJS s = some n →
      ((1 ≤ n ∧ n ≤ tp) → handleJump tp s = some n) ∧
      ((n < 1 ∨ tp < n) → handleJump tp s = none)) := by
  have heq : handleJump tp s =
      match parseIntJS s with
      | none => none
      | some pageNum =>
          if pageNum ≠ 0 ∧ pageNum ≥ 1 ∧ pageNum ≤ tp then some pageNum else none := rfl
  constructor
  · intro h
    rw [heq, h]
  · intro n h
    constructor
    · rintro ⟨ha, hb⟩
      rw [heq, h]
      simp only []
      rw [if_pos ⟨by omega, ha, hb⟩]
    · intro hout
      rw [heq, h]
      simp only []
      rw [if_neg (by omega)]

theorem C7_handleJump_behavior_witness :
    parseIntJS ("3") = some 3 ∧ handleJump 9 ("3") = some 3 :=
  ⟨by decide, ((C7_handleJump_behavior 9 ("3")).2 3 (by decide)).1 (by decide)⟩

/-- C8: the next-page control is an enabled link to `currentPage + 1` exactly
when `currentPage < totalPages` and a disabled placeholder (`none`, the
rendered failure of the navigation intent) otherwise; symmetrically the
previous-page control targets `currentPage - 1` exactly when
`currentPage > 1`. -/
theorem C8_next_prev_targets (cp tp : Int) :
    (nextTarget cp tp = some (cp + 1) ↔ cp < tp) ∧
    (nextTarget cp tp = none ↔ ¬cp < tp) ∧
    (prevTarget cp = some (cp - 1) ↔ 1 < cp) ∧
    (prevTarget cp = none ↔ ¬1 < cp) := by
  unfold nextTarget prevTarget
  refine ⟨?_, ?_, ?_, ?_⟩ <;> split <;> simp_all

/-- C9 (implicit safety): for every integer `currentPage` — including every
value outside `[1, totalPages]` — and every `totalPages ≥ 1` (with
`maxVisible = 7`), `generatePages` is a total function returning a finite
marker sequence (no exception can be raised: the body is straight-line
arithmetic and a bounded loop), and that sequence still contains the numeric
markers `1` and `totalPages`, with the contiguous run non-empty
(`startPage ≤ endPage`). -/
theorem C9_total_safety (cp tp : Int) (h : 1 ≤ tp) :
    Marker.page 1 ∈ generatePages cp tp ∧
    Marker.page tp ∈ generatePages cp tp ∧
    startPage cp tp ≤ endPage cp tp ∧
    generatePages cp tp ≠ [] :=
  ⟨page_one_mem_generatePages cp tp h,
   page_total_mem_generatePages cp tp h,
   startPage_le_endPage cp tp h,
   List.ne_nil_of_mem (page_one_mem_generatePages cp tp h)⟩

theorem C9_total_safety_witness :
    1 ≤ (4 : Int) ∧
      (Marker.page 1 ∈ generatePages (-100) 4 ∧
       Marker.page 4 ∈ generatePages (-100) 4 ∧
       startPage (-100) 4 ≤ endPage (-100) 4 ∧
       generatePages (-100) 4 ≠ []) :=
  ⟨by decide, C9_total_safety (-100) 4 (by decide)⟩

/-- C10 (implicit): for every valid `currentPage ≤ totalPages` (with
`maxVisible = 7`), the contiguous numeric run `startPage..endPage` emitted by
`generatePages` has exactly `min maxVisible totalPages` entries and contains
the current page; the run occurs verbatim inside the returned sequence. -/
theorem C10_visible_run (cp tp : Int) (h1 : 1 ≤ cp) (h2 : cp ≤ tp) :
    (pageRun (startPage cp tp) ((endPage cp tp - startPage cp tp + 1).toNat)).length
        = (min 7 tp).toNat ∧
    Marker.page cp ∈
      pageRun (startPage cp tp) ((endPage cp tp - startPage cp tp + 1).toNat) ∧
    ∃ pre post, generatePages cp tp
        = pre ++ pageRun (startPage cp tp) ((endPage cp tp - startPage cp tp + 1).toNat)
            ++ post := by
  have hlen := window_length cp tp h1 h2
  have hcur := window_contains_current cp tp h1 h2
  have hse := startPage_le_endPage cp tp (le_trans h1 h2)
  refine ⟨?_, ?_, ⟨_, _, generatePages_eq_parts cp tp⟩⟩
  · rw [length_pageRun]
    omega
  · refine mem_pageRun _ _ cp hcur.1 ?_
    rw [Int.toNat_of_nonneg (by omega)]
    omega

theorem C10_visible_run_witness :
    1 ≤ (5 : Int) ∧ (5 : Int) ≤ 10 ∧
      ((pageRun (startPage 5 10) ((endPage 5 10 - startPage 5 10 + 1).toNat)).length
          = (min 7 (10 : Int)).toNat ∧
       Marker.page 5 ∈
         pageRun (startPage 5 10) ((endPage 5 10 - startPage 5 10 + 1).toNat) ∧
       ∃ pre post, generatePages 5 10
          = pre ++ pageRun (startPage 5 10) ((endPage 5 10 - startPage 5 10 + 1).toNat)
              ++ post) :=
  ⟨by decide, by decide, C10_visible_run 5 10 (by decide) (by decide)⟩

end Nobelium
